import Mathlib

/-!
Shallow embedding of the coinswap compact-block-filter wallet sync engine
(src/src/wallet/cbf.rs, struct CbfBlockchain) and verification of its
specification claims.

External collaborators (the nakamoto sync engine and the wallet store) are
modelled by their observable behaviour: sync-engine calls by their boolean
outcome, the wallet store by explicit state.  Machine integers (u32/u64
heights, u64 amounts) are modelled as Nat: no arithmetic in the embedded
code can overflow at the modelled semantics.
-/

namespace Coinswap

/-- Output script, modelled opaquely (only equality is used by the code). -/
abbrev Script := Nat

/-- Transaction id, modelled opaquely. -/
abbrev Txid := Nat

/-- Block hash, modelled opaquely. -/
abbrev BlockHash := Nat

/-- bitcoin OutPoint: a reference to output `vout` of transaction `txid`. -/
structure OutPoint where
  txid : Txid
  vout : Nat
deriving DecidableEq

/-- bitcoin TxOut: `value` (amount) and `script_pubkey`. -/
structure TxOut where
  value : Nat
  script_pubkey : Script
deriving DecidableEq

/-- bitcoin TxIn: only the `previous_output` field is read by the code. -/
structure TxIn where
  previous_output : OutPoint
deriving DecidableEq

/-- bitcoin Transaction, with its txid modelled as a field (the code only
calls transaction.txid()). -/
structure Transaction where
  txid : Txid
  input : List TxIn
  output : List TxOut
deriving DecidableEq

/-- nakamoto FeeEstimate (low/median/high sat-per-vbyte triple); opaque data
for the code under verification. -/
structure FeeEstimate where
  low : Nat
  median : Nat
  high : Nat
deriving DecidableEq

/-- A tracked unspent output as held by the wallet store. -/
structure Utxo where
  outpoint : OutPoint
  amount : Nat
  script : Script
deriving DecidableEq

/-- Modelled from the spec: the Wallet Store collaborator (section 6).  Its
operations (is_script_tracked, add_utxo, remove_utxo, store_transaction) are
called from src/src/wallet/cbf.rs but not implemented under src (the source
itself notes they still need to be added), so the store is modelled as
explicit state.  `failAfter` models storage-failure behaviour: the mutating
call made when the countdown reaches zero fails, as do all later ones;
`none` means no storage failure occurs. -/
structure Wallet where
  trackedScripts : List Script
  utxos : List Utxo
  storedTxs : List Transaction
  failAfter : Option Nat
deriving DecidableEq

/-- Modelled from the spec: Wallet Store membership test
is_script_tracked(script) -> bool (section 6). -/
def Wallet.is_script_tracked (w : Wallet) (s : Script) : Bool :=
  w.trackedScripts.contains s

/-- Modelled from the spec: the tracked-Utxo membership test used by the
relevance matcher (section 4.3); true iff the outpoint currently exists as a
tracked Utxo. -/
def Wallet.is_utxo_tracked (w : Wallet) (o : OutPoint) : Bool :=
  w.utxos.any (fun u => u.outpoint == o)

/-- Advance the storage-failure countdown: returns whether the present
mutating call succeeds, and the wallet with the countdown consumed. -/
def Wallet.tick (w : Wallet) : Bool × Wallet :=
  match w.failAfter with
  | none => (true, w)
  | some 0 => (false, w)
  | some (n + 1) => (true, { w with failAfter := some n })

/-- Modelled from the spec: add_utxo(outpoint, amount, script) -> () | Error
(section 6); adding an already-present UTXO is a safe no-op (section 7).
Returns none on storage failure. -/
def Wallet.add_utxo (w : Wallet) (o : OutPoint) (amount : Nat) (script : Script) :
    Option Wallet :=
  match w.tick with
  | (false, _) => none
  | (true, w1) =>
    if w1.utxos.any (fun u => u.outpoint == o) then some w1
    else some { w1 with utxos := w1.utxos ++ [⟨o, amount, script⟩] }

/-- Modelled from the spec: remove_utxo(outpoint) -> () | Error (section 6);
removing an already-absent UTXO is a safe no-op (section 7).  Returns none on
storage failure. -/
def Wallet.remove_utxo (w : Wallet) (o : OutPoint) : Option Wallet :=
  match w.tick with
  | (false, _) => none
  | (true, w1) => some { w1 with utxos := w1.utxos.filter (fun u => !(u.outpoint == o)) }

/-- Modelled from the spec: store_transaction(transaction) -> () | Error
(section 6).  Returns none on storage failure. -/
def Wallet.store_transaction (w : Wallet) (tx : Transaction) : Option Wallet :=
  match w.tick with
  | (false, _) => none
  | (true, w1) => some { w1 with storedTxs := w1.storedTxs ++ [tx] }

/-- One observable wallet-store call, for recording call traces. -/
inductive WalletOp where
  | addUtxo (outpoint : OutPoint) (amount : Nat) (script : Script)
  | removeUtxo (outpoint : OutPoint)
  | storeTx (tx : Transaction)
deriving DecidableEq

/-- Result of applying a matched transaction to the wallet store: success
flag, the wallet state left behind (mutation is in place in the source, so
the state after a failure is the partially mutated one), and the trace of
wallet-store calls attempted, in order. -/
structure ApplyResult where
  ok : Bool
  wallet : Wallet
  calls : List WalletOp
deriving DecidableEq

/-- First loop of CbfBlockchain::update_wallet_with_tx (cbf.rs lines
224-227): for each relevant (vout, script), read the amount from the
transaction output at vout and call wallet.add_utxo, propagating failure. -/
def applyRelevantOutputs (tx : Transaction) :
    Wallet → List (Nat × Script) → ApplyResult
  | w, [] => ⟨true, w, []⟩
  | w, (vout, script) :: rest =>
    let amount := (tx.output.getD vout ⟨0, 0⟩).value
    match w.add_utxo ⟨tx.txid, vout⟩ amount script with
    | none => ⟨false, w, [.addUtxo ⟨tx.txid, vout⟩ amount script]⟩
    | some w1 =>
      let r := applyRelevantOutputs tx w1 rest
      ⟨r.ok, r.wallet, .addUtxo ⟨tx.txid, vout⟩ amount script :: r.calls⟩

/-- Second loop of CbfBlockchain::update_wallet_with_tx (cbf.rs lines
229-231): wallet.remove_utxo for each relevant input outpoint, propagating
failure. -/
def applyRelevantInputs : Wallet → List OutPoint → ApplyResult
  | w, [] => ⟨true, w, []⟩
  | w, o :: rest =>
    match w.remove_utxo o with
    | none => ⟨false, w, [.removeUtxo o]⟩
    | some w1 =>
      let r := applyRelevantInputs w1 rest
      ⟨r.ok, r.wallet, .removeUtxo o :: r.calls⟩

/-- CbfBlockchain::update_wallet_with_tx (cbf.rs lines 216-237): add one
utxo per relevant output, then remove one utxo per relevant input, then
store the transaction; each call propagates failure immediately (the Rust ?
operator), leaving earlier mutations in place. -/
def CbfBlockchain.update_wallet_with_tx (tx : Transaction)
    (relevant_outputs : List (Nat × Script)) (relevant_inputs : List OutPoint)
    (w : Wallet) : ApplyResult :=
  let r1 := applyRelevantOutputs tx w relevant_outputs
  if r1.ok then
    let r2 := applyRelevantInputs r1.wallet relevant_inputs
    if r2.ok then
      match r2.wallet.store_transaction tx with
      | none => ⟨false, r2.wallet, r1.calls ++ r2.calls ++ [.storeTx tx]⟩
      | some w3 => ⟨true, w3, r1.calls ++ r2.calls ++ [.storeTx tx]⟩
    else ⟨false, r2.wallet, r1.calls ++ r2.calls⟩
  else r1

/-- CbfBlockchain::find_relevant_outputs (cbf.rs lines 201-214): iterate the
enumerated output scripts and push (index, script) for each script the
wallet store tracks. -/
def CbfBlockchain.find_relevant_outputs (w : Wallet) (output_scripts : List Script) :
    List (Nat × Script) :=
  (output_scripts.enum).foldl
    (fun acc p => if w.is_script_tracked p.2 then acc ++ [(p.1, p.2)] else acc) []

/-- Modelled from the spec: CbfBlockchain::find_relevant_inputs is called at
cbf.rs line 192 but its definition is absent from src; per section 4.3 an
input is relevant iff its referenced outpoint currently exists as a tracked
Utxo, with the transaction input order preserved. -/
def CbfBlockchain.find_relevant_inputs (w : Wallet) (input_outpoints : List OutPoint) :
    List OutPoint :=
  input_outpoints.filter (fun o => w.is_utxo_tracked o)

/-- CbfBlockchain::process_transaction (cbf.rs lines 178-199): compute the
relevant outputs and inputs; if either list is nonempty, apply the
transaction to the wallet, otherwise do nothing. -/
def CbfBlockchain.process_transaction (tx : Transaction) (w : Wallet) : ApplyResult :=
  let output_scripts := tx.output.map (fun o => o.script_pubkey)
  let input_outpoints := tx.input.map (fun i => i.previous_output)
  let relevant_outputs := CbfBlockchain.find_relevant_outputs w output_scripts
  let relevant_inputs := CbfBlockchain.find_relevant_inputs w input_outpoints
  if !relevant_inputs.isEmpty || !relevant_outputs.isEmpty then
    CbfBlockchain.update_wallet_with_tx tx relevant_outputs relevant_inputs w
  else ⟨true, w, []⟩

/-- nakamoto client Event, restricted to the payload fields the code reads;
opaque payloads (addresses, headers, statuses) are modelled as Nat. -/
inductive Event where
  | ready (tip : Nat) (filterTip : Nat)
  | peerConnected (addr : Nat)
  | peerDisconnected (addr : Nat)
  | peerConnectionFailed (addr : Nat)
  | peerNegotiated (addr : Nat) (height : Nat)
  | peerHeightUpdated (height : Nat)
  | blockConnected (hash : BlockHash) (height : Nat)
  | blockDisconnected (hash : BlockHash) (height : Nat)
  | blockMatched (hash : BlockHash) (height : Nat) (transactions : List Transaction)
  | feeEstimated (block : BlockHash) (height : Nat) (fees : FeeEstimate)
  | filterProcessed (block : BlockHash) (height : Nat) (matched : Bool) (valid : Bool)
  | txStatusChanged (txid : Txid)
  | synced (height : Nat) (tip : Nat)
deriving DecidableEq

/-- Whether an event is a BlockDisconnected event. -/
def Event.isBlockDisconnected : Event → Bool
  | .blockDisconnected _ _ => true
  | _ => false

/-- The mutable state of CbfBlockchain (cbf.rs lines 26-34): the fee-data
map (HashMap modelled as an association list), the broadcast log, the sync
cursor, and the wallet store. -/
structure CbfState where
  fee_data : List (Nat × FeeEstimate)
  broadcasted_txs : List Transaction
  last_sync_height : Nat
  wallet : Wallet
deriving DecidableEq

/-- HashMap::insert on the association-list model: replace the value when
the key is present, append otherwise. -/
def insertFee : List (Nat × FeeEstimate) → Nat → FeeEstimate → List (Nat × FeeEstimate)
  | [], h, f => [(h, f)]
  | (k, v) :: rest, h, f =>
    if k = h then (h, f) :: rest else (k, v) :: insertFee rest h f

/-- CbfBlockchain::add_fee_data (cbf.rs lines 111-115): insert or replace
the fee estimate recorded for a height. -/
def CbfBlockchain.add_fee_data (s : CbfState) (height : Nat) (fee_estimate : FeeEstimate) :
    CbfState :=
  { s with fee_data := insertFee s.fee_data height fee_estimate }

/-- Association-list lookup on the fee-data map. -/
def lookupFee : List (Nat × FeeEstimate) → Nat → Option FeeEstimate
  | [], _ => none
  | (k, v) :: rest, h => if k = h then some v else lookupFee rest h

/-- Outcome of processing one event in the loop body of
CbfBlockchain::process_events: continue looping, break successfully, or
propagate a wallet error. -/
inductive StepOut where
  | cont (s : CbfState)
  | halt (s : CbfState)
  | err (s : CbfState)
deriving DecidableEq

/-- The for-loop over matched transactions (cbf.rs lines 153-156): process
each transaction in order, propagating the first wallet error. -/
def processMatchedTxs : List Transaction → Wallet → Bool × Wallet
  | [], w => (true, w)
  | tx :: rest, w =>
    let r := CbfBlockchain.process_transaction tx w
    if r.ok then processMatchedTxs rest r.wallet else (false, r.wallet)

/-- One iteration of the match in CbfBlockchain::process_events (cbf.rs
lines 126-173).  Arms that only log are identity on the state; BlockMatched
processes its transactions; Synced breaks the loop when height equals tip. -/
def CbfBlockchain.processEvent (e : Event) (s : CbfState) : StepOut :=
  match e with
  | .ready _ _ => .cont s
  | .peerConnected _ => .cont s
  | .peerDisconnected _ => .cont s
  | .peerConnectionFailed _ => .cont s
  | .peerNegotiated _ _ => .cont s
  | .peerHeightUpdated _ => .cont s
  | .blockConnected _ _ => .cont s
  | .blockDisconnected _ _ => .cont s
  | .blockMatched _ _ txs =>
    match processMatchedTxs txs s.wallet with
    | (true, w1) => .cont { s with wallet := w1 }
    | (false, w1) => .err { s with wallet := w1 }
  | .feeEstimated _ _ _ => .cont s
  | .filterProcessed _ _ _ _ => .cont s
  | .txStatusChanged _ => .cont s
  | .synced height tip => if height = tip then .halt s else .cont s

/-- How the event loop ended: Ok return, a wallet error propagated, or the
modelled event stream was exhausted (the blocking recv would fail with a
channel-closed error). -/
inductive LoopOutcome where
  | ok
  | walletError
  | channelClosed
deriving DecidableEq

/-- CbfBlockchain::process_events (cbf.rs lines 124-176) over a finite
modelled event stream: pull events in order, dispatch each through
processEvent, stop on break or error. -/
def CbfBlockchain.process_events : List Event → CbfState → LoopOutcome × CbfState
  | [], s => (.channelClosed, s)
  | e :: es, s =>
    match CbfBlockchain.processEvent e s with
    | .halt s1 => (.ok, s1)
    | .err s1 => (.walletError, s1)
    | .cont s1 => CbfBlockchain.process_events es s1

/-- The peer-connection loop of CbfBlockchain::new (cbf.rs lines 77-82):
each connect call outcome is modelled by a Bool; the first failing call
propagates its error (the Rust ? operator). -/
def connectAll : List Bool → Option Unit
  | [] => some ()
  | ok :: rest => if ok then connectAll rest else none

/-- CbfBlockchain::new (cbf.rs lines 54-93): client creation is modelled by
its outcome engine_start_ok; on success every peer is connected in turn with
failure propagated, and the initial state has an empty fee map, empty
broadcast log and sync cursor 0. -/
def CbfBlockchain.new (engine_start_ok : Bool) (peer_connect_ok : List Bool)
    (wallet : Wallet) : Option CbfState :=
  if engine_start_ok then
    match connectAll peer_connect_ok with
    | none => none
    | some _ =>
      some { fee_data := [], broadcasted_txs := [], last_sync_height := 0, wallet := wallet }
  else none

/-! Helper lemmas shared by the claim theorems. -/

/-- The projection of a loop-step outcome to the state it carries. -/
def StepOut.state : StepOut → CbfState
  | .cont s => s
  | .halt s => s
  | .err s => s

/-- Folding a conditional push over a list of pairs accumulates exactly the
filtered list. -/
theorem foldl_push_filter {α β : Type} (q : α × β → Bool) (l : List (α × β)) :
    ∀ acc, l.foldl (fun a x => if q x then a ++ [(x.1, x.2)] else a) acc
      = acc ++ l.filter q := by
  induction l with
  | nil => intro acc; simp
  | cons x l ih =>
    intro acc
    by_cases h : q x = true
    · simp [h, ih, List.filter_cons]
    · simp [h, ih, List.filter_cons]

/-- find_relevant_outputs is the tracked-script filter of the enumerated
output scripts. -/
theorem find_relevant_outputs_eq_filter (w : Wallet) (output_scripts : List Script) :
    CbfBlockchain.find_relevant_outputs w output_scripts
      = (output_scripts.enum).filter (fun p => w.is_script_tracked p.2) := by
  unfold CbfBlockchain.find_relevant_outputs
  rw [foldl_push_filter (fun p => w.is_script_tracked p.2) output_scripts.enum []]
  simp

/-- No arm of the event-dispatch match changes the sync cursor. -/
theorem processEvent_cursor (e : Event) (s : CbfState) :
    (CbfBlockchain.processEvent e s).state.last_sync_height = s.last_sync_height := by
  cases e <;> simp only [CbfBlockchain.processEvent] <;>
    first
      | rfl
      | (split <;> rfl)

/-- The event loop never changes the sync cursor: only initialize_cbf_sync
sets last_sync_height in the source. -/
theorem process_events_cursor (es : List Event) :
    ∀ s : CbfState,
      (CbfBlockchain.process_events es s).2.last_sync_height = s.last_sync_height := by
  induction es with
  | nil => intro s; rfl
  | cons e es ih =>
    intro s
    have h := processEvent_cursor e s
    simp only [CbfBlockchain.process_events]
    rcases hpe : CbfBlockchain.processEvent e s with s1 | s1 | s1 <;>
      rw [hpe] at h <;> simp only [StepOut.state] at h
    · rw [ih s1, h]
    · exact h
    · exact h

/-- With no storage failure scheduled, add_utxo succeeds and schedules no
failure. -/
theorem add_utxo_none (w : Wallet) (o : OutPoint) (a : Nat) (sc : Script)
    (h : w.failAfter = none) :
    ∃ w1, w.add_utxo o a sc = some w1 ∧ w1.failAfter = none := by
  unfold Wallet.add_utxo Wallet.tick
  rw [h]
  dsimp only
  split
  · exact ⟨w, rfl, h⟩
  · exact ⟨_, rfl, h⟩

/-- With no storage failure scheduled, remove_utxo succeeds and schedules no
failure. -/
theorem remove_utxo_none (w : Wallet) (o : OutPoint) (h : w.failAfter = none) :
    ∃ w1, w.remove_utxo o = some w1 ∧ w1.failAfter = none := by
  unfold Wallet.remove_utxo Wallet.tick
  rw [h]
  exact ⟨_, rfl, h⟩

/-- With no storage failure scheduled, store_transaction succeeds. -/
theorem store_transaction_none (w : Wallet) (tx : Transaction) (h : w.failAfter = none) :
    ∃ w1, w.store_transaction tx = some w1 := by
  unfold Wallet.store_transaction Wallet.tick
  rw [h]
  exact ⟨_, rfl⟩

/-- With no storage failure, the output loop succeeds and calls add_utxo
once per relevant output, in order, with the amount read from the
transaction output at that index. -/
theorem applyRelevantOutputs_spec (tx : Transaction) :
    ∀ (ros : List (Nat × Script)) (w : Wallet), w.failAfter = none →
      (applyRelevantOutputs tx w ros).ok = true
      ∧ (applyRelevantOutputs tx w ros).wallet.failAfter = none
      ∧ (applyRelevantOutputs tx w ros).calls
          = ros.map (fun p =>
              WalletOp.addUtxo ⟨tx.txid, p.1⟩ ((tx.output.getD p.1 ⟨0, 0⟩).value) p.2) := by
  intro ros
  induction ros with
  | nil => intro w h; exact ⟨rfl, h, rfl⟩
  | cons p rest ih =>
    obtain ⟨vout, script⟩ := p
    intro w h
    obtain ⟨w1, hw1, hfa⟩ :=
      add_utxo_none w ⟨tx.txid, vout⟩ ((tx.output.getD vout ⟨0, 0⟩).value) script h
    obtain ⟨ih1, ih2, ih3⟩ := ih w1 hfa
    simp only [applyRelevantOutputs, hw1]
    exact ⟨ih1, ih2, by simp [ih3]⟩

/-- With no storage failure, the input loop succeeds and calls remove_utxo
once per relevant input outpoint, in order. -/
theorem applyRelevantInputs_spec :
    ∀ (ris : List OutPoint) (w : Wallet), w.failAfter = none →
      (applyRelevantInputs w ris).ok = true
      ∧ (applyRelevantInputs w ris).wallet.failAfter = none
      ∧ (applyRelevantInputs w ris).calls = ris.map (fun o => WalletOp.removeUtxo o) := by
  intro ris
  induction ris with
  | nil => intro w h; exact ⟨rfl, h, rfl⟩
  | cons o rest ih =>
    intro w h
    obtain ⟨w1, hw1, hfa⟩ := remove_utxo_none w o h
    obtain ⟨ih1, ih2, ih3⟩ := ih w1 hfa
    simp only [applyRelevantInputs, hw1]
    exact ⟨ih1, ih2, by simp [ih3]⟩

/-- connectAll succeeds exactly when every peer connect call succeeds. -/
theorem connectAll_isSome :
    ∀ l : List Bool, (connectAll l).isSome = l.all (fun b => b) := by
  intro l
  induction l with
  | nil => rfl
  | cons b rest ih =>
    cases b
    · simp [connectAll]
    · simp [connectAll, ih]

/-! Claim theorems. -/

/-- Claim C1: the spec requires that a BlockDisconnected(height, hash) event
roll back every Utxo and TrackedTransaction owned by that height, restore
Utxos spent by rolled-back transactions, and set the sync cursor to
height - 1.  The source (cbf.rs lines 148-150) only logs the event: on a
concrete state holding a stored spending transaction and cursor 11,
processing BlockDisconnected at height 11 leaves the whole state unchanged
(no Utxo restored, no transaction removed, cursor still 11 instead of 10). -/
theorem cbf_c1_disconnect_no_rollback :
    CbfBlockchain.process_events [Event.blockDisconnected 99 11]
        ⟨[], [], 11, ⟨[7], [], [⟨2, [⟨⟨1, 0⟩⟩], []⟩], none⟩⟩
      = (LoopOutcome.channelClosed,
         ⟨[], [], 11, ⟨[7], [], [⟨2, [⟨⟨1, 0⟩⟩], []⟩], none⟩⟩) := rfl

/-- Claim C2: the spec requires reconciliation of one matched transaction to
be all-or-nothing.  The source (cbf.rs lines 216-237) issues the wallet
calls sequentially with early-return on error and no rollback: on a
transaction with two relevant outputs over a store whose second mutating
call fails, the operation returns failure, yet the first added Utxo remains
visible in the store (partial mutation). -/
theorem cbf_c2_partial_mutation_on_failure :
    (CbfBlockchain.process_transaction ⟨1, [], [⟨100, 5⟩, ⟨200, 5⟩]⟩
        ⟨[5], [], [], some 1⟩).ok = false
    ∧ (CbfBlockchain.process_transaction ⟨1, [], [⟨100, 5⟩, ⟨200, 5⟩]⟩
        ⟨[5], [], [], some 1⟩).wallet.utxos = [⟨⟨1, 0⟩, 100, 5⟩] := ⟨rfl, rfl⟩

/-- Claim C3: an output is relevant iff its script passes the tracked-script
membership test, an input is relevant iff its referenced outpoint exists as
a tracked Utxo, and both lists preserve the transaction ordering, each
relevant output paired with its original index: find_relevant_outputs is
exactly the tracked filter of the enumerated output scripts, and
find_relevant_inputs is exactly the tracked-Utxo filter of the input
outpoints. -/
theorem cbf_c3_relevance_matcher (w : Wallet) (output_scripts : List Script)
    (input_outpoints : List OutPoint) :
    CbfBlockchain.find_relevant_outputs w output_scripts
      = (output_scripts.enum).filter (fun p => w.is_script_tracked p.2)
    ∧ CbfBlockchain.find_relevant_inputs w input_outpoints
      = input_outpoints.filter (fun o => w.is_utxo_tracked o)
    ∧ (∀ (i : Nat) (sc : Script),
        (i, sc) ∈ CbfBlockchain.find_relevant_outputs w output_scripts
          ↔ (output_scripts[i]? = some sc ∧ w.is_script_tracked sc = true))
    ∧ (∀ o : OutPoint,
        o ∈ CbfBlockchain.find_relevant_inputs w input_outpoints
          ↔ (o ∈ input_outpoints ∧ w.is_utxo_tracked o = true)) := by
  refine ⟨find_relevant_outputs_eq_filter w output_scripts, rfl, ?_, ?_⟩
  · intro i sc
    rw [find_relevant_outputs_eq_filter]
    simp [List.mem_filter, List.mk_mem_enum_iff_getElem?]
  · intro o
    simp [CbfBlockchain.find_relevant_inputs, List.mem_filter]

/-- Claim C4, counterexample: the claim additionally asserts that on
Synced(height, tip) with height equal to tip the loop terminates with the
sync cursor equal to that height.  On a state with cursor 0, the event
Synced(20, 20) terminates the loop successfully but the cursor is still 0,
not 20: the loop never writes last_sync_height. -/
theorem cbf_c4_counterexample :
    (CbfBlockchain.process_events [Event.synced 20 20] ⟨[], [], 0, ⟨[], [], [], none⟩⟩).1
      = LoopOutcome.ok
    ∧ ((CbfBlockchain.process_events [Event.synced 20 20]
        ⟨[], [], 0, ⟨[], [], [], none⟩⟩).2).last_sync_height = 0 := ⟨rfl, rfl⟩

/-- Claim C4, amended: when the loop receives Synced(height, tip) with
height equal to tip it terminates successfully with the state unchanged (the
sync cursor keeps its prior value); when height differs from tip the loop
continues pulling events. -/
theorem cbf_c4_synced_termination (height tip : Nat) (es : List Event) (s : CbfState) :
    (height = tip →
      CbfBlockchain.process_events (Event.synced height tip :: es) s = (LoopOutcome.ok, s))
    ∧ (height ≠ tip →
      CbfBlockchain.process_events (Event.synced height tip :: es) s
        = CbfBlockchain.process_events es s) := by
  constructor
  · intro h
    simp [CbfBlockchain.process_events, CbfBlockchain.processEvent, h]
  · intro h
    simp [CbfBlockchain.process_events, CbfBlockchain.processEvent, h]

/-- Claim C4, witness for the amended theorem at concrete inputs. -/
theorem cbf_c4_synced_termination_witness :
    CbfBlockchain.process_events [Event.synced 20 20] ⟨[], [], 20, ⟨[], [], [], none⟩⟩
      = (LoopOutcome.ok, ⟨[], [], 20, ⟨[], [], [], none⟩⟩)
    ∧ CbfBlockchain.process_events [Event.synced 19 20] ⟨[], [], 20, ⟨[], [], [], none⟩⟩
      = CbfBlockchain.process_events [] ⟨[], [], 20, ⟨[], [], [], none⟩⟩ :=
  ⟨(cbf_c4_synced_termination 20 20 [] ⟨[], [], 20, ⟨[], [], [], none⟩⟩).1 rfl,
   (cbf_c4_synced_termination 19 20 [] ⟨[], [], 20, ⟨[], [], [], none⟩⟩).2 (by decide)⟩

/-- Claim C5, counterexample: the claim says a BlockConnected(height, hash)
event advances the sync cursor to height whenever it exceeds the current
value.  On a state with cursor 5, processing BlockConnected at height 10
leaves the cursor at 5: the source arm (cbf.rs lines 145-147) only logs. -/
theorem cbf_c5_counterexample :
    CbfBlockchain.process_events [Event.blockConnected 1 10] ⟨[], [], 5, ⟨[], [], [], none⟩⟩
      = (LoopOutcome.channelClosed, ⟨[], [], 5, ⟨[], [], [], none⟩⟩) := rfl

/-- Claim C5, amended: BlockConnected events are handled by logging only;
the dispatch arm leaves the whole state, in particular the sync cursor,
unchanged and continues the loop. -/
theorem cbf_c5_block_connected_identity (hash height : Nat) (s : CbfState) :
    CbfBlockchain.processEvent (Event.blockConnected hash height) s = StepOut.cont s := rfl

/-- Claim C6: the spec requires a FeeEstimated(height, estimate) event to
insert or replace that height in the fee-estimate cache, and the helper
add_fee_data (cbf.rs lines 111-115) indeed implements insert-or-replace; but
the dispatch arm (cbf.rs lines 158-160) only logs and never calls it, so
after processing FeeEstimated at height 7 the cache is still empty. -/
theorem cbf_c6_fee_event_ignored :
    CbfBlockchain.process_events [Event.feeEstimated 1 7 ⟨1, 2, 3⟩]
        ⟨[], [], 0, ⟨[], [], [], none⟩⟩
      = (LoopOutcome.channelClosed, ⟨[], [], 0, ⟨[], [], [], none⟩⟩)
    ∧ lookupFee
        (CbfBlockchain.add_fee_data ⟨[], [], 0, ⟨[], [], [], none⟩⟩ 7 ⟨1, 2, 3⟩).fee_data 7
      = some ⟨1, 2, 3⟩ := ⟨rfl, rfl⟩

/-- Claim C7: across any sequence of events containing no BlockDisconnected
event, the sync cursor is non-decreasing.  This holds (the event loop in the
source never writes last_sync_height at all, so the cursor is constant
across processing, with or without disconnections). -/
theorem cbf_c7_cursor_monotone (es : List Event) (s : CbfState)
    (_h : ∀ e ∈ es, e.isBlockDisconnected = false) :
    s.last_sync_height ≤ (CbfBlockchain.process_events es s).2.last_sync_height :=
  le_of_eq (process_events_cursor es s).symm

/-- Claim C7, witness at a concrete disconnect-free event sequence. -/
theorem cbf_c7_cursor_monotone_witness :
    (⟨[], [], 5, ⟨[], [], [], none⟩⟩ : CbfState).last_sync_height
      ≤ (CbfBlockchain.process_events [Event.blockConnected 1 10, Event.synced 20 20]
          ⟨[], [], 5, ⟨[], [], [], none⟩⟩).2.last_sync_height :=
  cbf_c7_cursor_monotone [Event.blockConnected 1 10, Event.synced 20 20]
    ⟨[], [], 5, ⟨[], [], [], none⟩⟩ (by decide)

/-- Claim C8, counterexample: the claim says a failed connection to some of
the supplied peers is tolerated as best-effort partial success.  With the
engine started and two peers of which the second connect call fails, the
constructor returns an error (the source propagates every connect error with
the question-mark operator, cbf.rs lines 77-82). -/
theorem cbf_c8_counterexample :
    CbfBlockchain.new true [true, false] ⟨[], [], [], none⟩ = none := rfl

/-- Claim C8, amended: construction succeeds exactly when the sync engine
starts and every peer connect call succeeds; a failed peer connection is not
tolerated but propagates as a connectivity error. -/
theorem cbf_c8_new_connectivity (engine_start_ok : Bool) (peer_connect_ok : List Bool)
    (w : Wallet) :
    (CbfBlockchain.new engine_start_ok peer_connect_ok w).isSome
      = (engine_start_ok && peer_connect_ok.all (fun b => b)) := by
  cases engine_start_ok with
  | false => rfl
  | true =>
    have hc2 := connectAll_isSome peer_connect_ok
    rcases hc : connectAll peer_connect_ok with _ | u <;>
      rw [hc] at hc2 <;>
      simp [CbfBlockchain.new, hc, ← hc2]

/-- Claim C9: a matched transaction whose relevant-output and
relevant-input lists are both empty is a no-op: process_transaction performs
no wallet-store call, leaves the wallet unchanged, and returns success. -/
theorem cbf_c9_empty_relevance_noop (tx : Transaction) (w : Wallet)
    (hout : CbfBlockchain.find_relevant_outputs w
        (tx.output.map (fun o => o.script_pubkey)) = [])
    (hin : CbfBlockchain.find_relevant_inputs w
        (tx.input.map (fun i => i.previous_output)) = []) :
    CbfBlockchain.process_transaction tx w = ⟨true, w, []⟩ := by
  simp [CbfBlockchain.process_transaction, hout, hin]

/-- Claim C9, witness: a transaction paying an untracked script and spending
an untracked outpoint is processed as a no-op. -/
theorem cbf_c9_empty_relevance_noop_witness :
    CbfBlockchain.process_transaction ⟨1, [⟨⟨3, 0⟩⟩], [⟨100, 9⟩]⟩ ⟨[], [], [], none⟩
      = ⟨true, ⟨[], [], [], none⟩, []⟩ :=
  cbf_c9_empty_relevance_noop ⟨1, [⟨⟨3, 0⟩⟩], [⟨100, 9⟩]⟩ ⟨[], [], [], none⟩
    (by decide) (by decide)

/-- Claim C10: when a matched transaction is applied to the wallet with no
storage failure, the wallet-store calls occur in fixed order: one add_utxo
per relevant output in list order with the amount read from the transaction
output at that index, then one remove_utxo per relevant input outpoint, then
exactly one store_transaction for the whole transaction. -/
theorem cbf_c10_wallet_call_order (tx : Transaction) (ros : List (Nat × Script))
    (ris : List OutPoint) (w : Wallet) (h : w.failAfter = none) :
    (CbfBlockchain.update_wallet_with_tx tx ros ris w).ok = true
    ∧ (CbfBlockchain.update_wallet_with_tx tx ros ris w).calls
        = ros.map (fun p =>
            WalletOp.addUtxo ⟨tx.txid, p.1⟩ ((tx.output.getD p.1 ⟨0, 0⟩).value) p.2)
          ++ ris.map (fun o => WalletOp.removeUtxo o)
          ++ [WalletOp.storeTx tx] := by
  obtain ⟨h1ok, h1fa, h1calls⟩ := applyRelevantOutputs_spec tx ros w h
  obtain ⟨h2ok, h2fa, h2calls⟩ := applyRelevantInputs_spec ris _ h1fa
  obtain ⟨w3, hw3⟩ := store_transaction_none _ tx h2fa
  simp [CbfBlockchain.update_wallet_with_tx, h1ok, h2ok, hw3, h1calls, h2calls]

/-- Claim C10, witness at a concrete transaction with one relevant output
and one relevant input. -/
theorem cbf_c10_wallet_call_order_witness :
    (CbfBlockchain.update_wallet_with_tx ⟨1, [⟨⟨9, 0⟩⟩], [⟨100, 5⟩]⟩ [(0, 5)] [⟨9, 0⟩]
        ⟨[5], [⟨⟨9, 0⟩, 42, 5⟩], [], none⟩).ok = true
    ∧ (CbfBlockchain.update_wallet_with_tx ⟨1, [⟨⟨9, 0⟩⟩], [⟨100, 5⟩]⟩ [(0, 5)] [⟨9, 0⟩]
        ⟨[5], [⟨⟨9, 0⟩, 42, 5⟩], [], none⟩).calls
      = [WalletOp.addUtxo ⟨1, 0⟩ 100 5, WalletOp.removeUtxo ⟨9, 0⟩,
         WalletOp.storeTx ⟨1, [⟨⟨9, 0⟩⟩], [⟨100, 5⟩]⟩] := by
  have h := cbf_c10_wallet_call_order ⟨1, [⟨⟨9, 0⟩⟩], [⟨100, 5⟩]⟩ [(0, 5)] [⟨9, 0⟩]
    ⟨[5], [⟨⟨9, 0⟩, 42, 5⟩], [], none⟩ rfl
  exact ⟨h.1, h.2.trans (by decide)⟩

end Coinswap
